import Mathlib

/-!
Verification of the BLE advertising-data structure library (`ble-data-struct-rust`).

The development shallowly embeds the byte-level codecs of the crate:
machine bytes become `Nat` (with `% 256` where the code casts), `Vec<u8>`
becomes `List Nat`, and every operation that can panic in Rust (unchecked
slicing, `try_into().unwrap()`) is embedded as an `Option`-valued function
where `none` models the panic.  Fallible conversions (`TryFrom`) return
`Option (Except String _)`: the `Except` layer is the Rust `Result`, the
`Option` layer records panic-freedom.
-/

/-- `u16::from_le_bytes([lo, hi])`. -/
def u16FromLeBytes (lo hi : Nat) : Nat := lo + 256 * hi

/-- `u16::to_le_bytes` of a 16-bit value, as the two bytes the encoders append. -/
def u16ToLeBytes (a : Nat) : List Nat := [a % 256, a / 256 % 256]

/-- Rust slice indexing `l[a..b]`; `none` models the out-of-bounds panic
(`a > b` or `b > l.len()`). -/
def sliceRange (l : List Nat) (a b : Nat) : Option (List Nat) :=
  if a ≤ b ∧ b ≤ l.length then some ((l.drop a).take (b - a)) else none

/-- `uuid::Uuid`, represented by its sixteen internal bytes in big-endian
(field) order, exactly as the `uuid` crate stores them. -/
structure Uuid where
  b0 : Nat
  b1 : Nat
  b2 : Nat
  b3 : Nat
  b4 : Nat
  b5 : Nat
  b6 : Nat
  b7 : Nat
  b8 : Nat
  b9 : Nat
  b10 : Nat
  b11 : Nat
  b12 : Nat
  b13 : Nat
  b14 : Nat
  b15 : Nat
deriving DecidableEq, Repr

/-- `Uuid::to_bytes_le`: the mixed-endian byte form — the three leading
fields are byte-swapped, the trailing eight bytes are kept as stored. -/
def Uuid.to_bytes_le (u : Uuid) : List Nat :=
  [u.b3, u.b2, u.b1, u.b0, u.b5, u.b4, u.b7, u.b6,
   u.b8, u.b9, u.b10, u.b11, u.b12, u.b13, u.b14, u.b15]

/-- `Uuid::from_bytes_le`: inverse byte-swap of `to_bytes_le`.  The source
always applies it to a full 16-byte array, so the default for missing
positions is never used. -/
def Uuid.from_bytes_le (l : List Nat) : Uuid :=
  ⟨l.getD 3 0, l.getD 2 0, l.getD 1 0, l.getD 0 0,
   l.getD 5 0, l.getD 4 0, l.getD 7 0, l.getD 6 0,
   l.getD 8 0, l.getD 9 0, l.getD 10 0, l.getD 11 0,
   l.getD 12 0, l.getD 13 0, l.getD 14 0, l.getD 15 0⟩

/-- `Uuid::as_u128`: the 128-bit value, big-endian over the stored bytes. -/
def Uuid.as_u128 (u : Uuid) : Nat :=
  ((((((((((((((u.b0 * 256 + u.b1) * 256 + u.b2) * 256 + u.b3) * 256 + u.b4) * 256
    + u.b5) * 256 + u.b6) * 256 + u.b7) * 256 + u.b8) * 256 + u.b9) * 256 + u.b10) * 256
    + u.b11) * 256 + u.b12) * 256 + u.b13) * 256 + u.b14) * 256 + u.b15

/-- `Uuid::from_u128`: store the 128-bit value big-endian. -/
def Uuid.from_u128 (n : Nat) : Uuid :=
  ⟨n / 2 ^ 120 % 256, n / 2 ^ 112 % 256, n / 2 ^ 104 % 256, n / 2 ^ 96 % 256,
   n / 2 ^ 88 % 256, n / 2 ^ 80 % 256, n / 2 ^ 72 % 256, n / 2 ^ 64 % 256,
   n / 2 ^ 56 % 256, n / 2 ^ 48 % 256, n / 2 ^ 40 % 256, n / 2 ^ 32 % 256,
   n / 2 ^ 24 % 256, n / 2 ^ 16 % 256, n / 2 ^ 8 % 256, n % 256⟩

/-- `u128::from_le_bytes` over a 16-byte window. -/
def u128FromLeBytes (w : List Nat) : Nat := w.foldr (fun b acc => b + 256 * acc) 0

/-- `u128::to_le_bytes`. -/
def u128ToLeBytes (n : Nat) : List Nat := (List.range 16).map (fun i => n / 256 ^ i % 256)

/-- Modelled from the spec: `BASE_UUID` is exported from the crate root,
which is not under src; the glossary fixes it as the Bluetooth SIG base
UUID `00000000-0000-1000-8000-00805F9B34FB` (stored big-endian). -/
def BASE_UUID : Uuid :=
  ⟨0x00, 0x00, 0x00, 0x00, 0x00, 0x00, 0x10, 0x00,
   0x80, 0x00, 0x00, 0x80, 0x5F, 0x9B, 0x34, 0xFB⟩

/-- The 16-bit short-UUID value an overlaid UUID carries: the low 16 bits
of its leading 32-bit field.  Used to state the low-16-bit claims. -/
def uuidShort16 (u : Uuid) : Nat := u.b2 * 256 + u.b3

/-- `Appearance` (appearance.rs): length byte plus the 16-bit appearance. -/
structure Appearance where
  length : Nat
  appearance : Nat
deriving DecidableEq, Repr

/-- `Appearance::data_type()` (appearance.rs line 179). -/
def Appearance.data_type : Nat := 0x19

/-- `Appearance::new` (appearance.rs line 27). -/
def Appearance.new (appearance : Nat) : Appearance := ⟨3, appearance⟩

/-- `Appearance::from_with_offset` (appearance.rs lines 61-67):
`data[offset]` then `u16::from_le_bytes(data.split_at(2 + offset).1.try_into().unwrap())`.
`none` models the panics: the index panic, the `split_at` panic, and the
`try_into` unwrap on a tail that is not exactly two bytes. -/
def Appearance.from_with_offset (data : List Nat) (offset : Nat) : Option Appearance :=
  match data.get? offset with
  | none => none
  | some length =>
    if 2 + offset ≤ data.length then
      match data.drop (2 + offset) with
      | [lo, hi] => some ⟨length, u16FromLeBytes lo hi⟩
      | _ => none
    else none

/-- `From<&Vec<u8>> for Appearance` (appearance.rs lines 132-134). -/
def Appearance.from_vec (data : List Nat) : Option Appearance :=
  Appearance.from_with_offset data 0

/-- `Appearance::category` (appearance.rs lines 86-88):
`(self.appearance >> 6) & 0b00000011_11111111`. -/
def Appearance.category (self : Appearance) : Nat :=
  (self.appearance >>> 6) &&& 0b0000001111111111

/-- `Appearance::sub_category` (appearance.rs lines 107-109):
`self.appearance & 0b00111111`. -/
def Appearance.sub_category (self : Appearance) : Nat :=
  self.appearance &&& 0b00111111

/-- `Into<Vec<u8>> for Appearance` (appearance.rs lines 160-166). -/
def Appearance.into (self : Appearance) : List Nat :=
  self.length :: Appearance.data_type :: u16ToLeBytes self.appearance

/-- Modelled from the spec: `Appearance::try_from` is invoked by the
dispatcher but is not under src (appearance.rs only carries the infallible
`From`); per §4.2 the decode validates the minimum record size and
otherwise defers to the offset decoder. -/
def Appearance.try_from (value : List Nat) : Option (Except String Appearance) :=
  if value.length < 4 then some (.error ("Invalid data size :" ++ toString value.length))
  else (Appearance.from_with_offset value 0).map Except.ok

/-- `windows(2).step_by(2)`: the non-overlapping 2-byte windows, in order,
any trailing odd byte dropped. -/
def windows2Step2 : List Nat → List (Nat × Nat)
  | [] => []
  | [_] => []
  | a :: b :: rest => (a, b) :: windows2Step2 rest

/-- `windows(16).step_by(16)`: the non-overlapping 16-byte windows, in
order, any trailing partial window dropped. -/
def windows16Step16 : List Nat → List (List Nat)
  | [] => []
  | [_] => []
  | [_, _] => []
  | [_, _, _] => []
  | [_, _, _, _] => []
  | [_, _, _, _, _] => []
  | [_, _, _, _, _, _] => []
  | [_, _, _, _, _, _, _] => []
  | [_, _, _, _, _, _, _, _] => []
  | [_, _, _, _, _, _, _, _, _] => []
  | [_, _, _, _, _, _, _, _, _, _] => []
  | [_, _, _, _, _, _, _, _, _, _, _] => []
  | [_, _, _, _, _, _, _, _, _, _, _, _] => []
  | [_, _, _, _, _, _, _, _, _, _, _, _, _] => []
  | [_, _, _, _, _, _, _, _, _, _, _, _, _, _] => []
  | [_, _, _, _, _, _, _, _, _, _, _, _, _, _, _] => []
  | c0 :: c1 :: c2 :: c3 :: c4 :: c5 :: c6 :: c7 ::
    c8 :: c9 :: c10 :: c11 :: c12 :: c13 :: c14 :: c15 :: rest =>
      [c0, c1, c2, c3, c4, c5, c6, c7, c8, c9, c10, c11, c12, c13, c14, c15]
        :: windows16Step16 rest

/-- One decoded element of the 16-bit list
(complete_list_of_16bit_service_uuids.rs lines 85-90): overlay the
window's two bytes onto positions 0 and 1 of `BASE_UUID.to_bytes_le()`. -/
def uuid16FromWindow (a b : Nat) : Uuid :=
  Uuid.from_bytes_le ((BASE_UUID.to_bytes_le.set 0 a).set 1 b)

/-- `CompleteListOf16BitServiceUuids` (complete_list_of_16bit_service_uuids.rs). -/
structure CompleteListOf16BitServiceUuids where
  length : Nat
  uuids : List Uuid
deriving DecidableEq, Repr

/-- `CompleteListOf16BitServiceUuids::data_type()`. -/
def CompleteListOf16BitServiceUuids.data_type : Nat := 0x03

/-- `CompleteListOf16BitServiceUuids::new` (lines 35-40); the stored length
is `(uuids.len() * 2 + 1) as u8`, hence the `% 256`. -/
def CompleteListOf16BitServiceUuids.new (uuids : List Uuid) : CompleteListOf16BitServiceUuids :=
  ⟨(uuids.length * 2 + 1) % 256, uuids⟩

/-- `TryFrom<&Vec<u8>> for CompleteListOf16BitServiceUuids` (lines 74-93):
reject buffers shorter than 4 bytes, then slice `value[2..2 + length - 1]`
by the declared length byte `length = value[0]` (written `value.headD 0`,
safe since the buffer is non-empty here; `none` models the slice panic
when the declared length is 0 or overruns the buffer) and decode each
complete 2-byte window. -/
def CompleteListOf16BitServiceUuids.try_from (value : List Nat) :
    Option (Except String CompleteListOf16BitServiceUuids) :=
  if value.length < 4 then some (.error ("Invalid data size :" ++ toString value.length))
  else
    match sliceRange value 2 (2 + value.headD 0 - 1) with
    | some payload =>
        some (.ok ⟨value.headD 0,
          (windows2Step2 payload).map (fun w => uuid16FromWindow w.1 w.2)⟩)
    | none => none

/-- `Into<Vec<u8>> for CompleteListOf16BitServiceUuids` (lines 142-155):
length byte, tag, then the first two `to_bytes_le` bytes of each UUID. -/
def CompleteListOf16BitServiceUuids.into (self : CompleteListOf16BitServiceUuids) : List Nat :=
  self.length :: CompleteListOf16BitServiceUuids.data_type
    :: self.uuids.flatMap (fun f => f.to_bytes_le.take 2)

/-- `is_complete_list_of_16bit_service_uuids` (lines 184-186). -/
def is_complete_list_of_16bit_service_uuids (data_type : Nat) : Bool :=
  CompleteListOf16BitServiceUuids.data_type == data_type

/-- `CompleteListOf128BitServiceUuids` (complete_list_of_128bit_service_uuids.rs). -/
structure CompleteListOf128BitServiceUuids where
  length : Nat
  uuids : List Uuid
deriving DecidableEq, Repr

/-- `CompleteListOf128BitServiceUuids::data_type()`. -/
def CompleteListOf128BitServiceUuids.data_type : Nat := 0x07

/-- `CompleteListOf128BitServiceUuids::new` (lines 35-40). -/
def CompleteListOf128BitServiceUuids.new (uuids : List Uuid) : CompleteListOf128BitServiceUuids :=
  ⟨(uuids.length * 16 + 1) % 256, uuids⟩

/-- `TryFrom<&Vec<u8>> for CompleteListOf128BitServiceUuids` (lines 83-97). -/
def CompleteListOf128BitServiceUuids.try_from (value : List Nat) :
    Option (Except String CompleteListOf128BitServiceUuids) :=
  if value.length < 17 then some (.error ("Invalid data size :" ++ toString value.length))
  else
    match sliceRange value 2 (2 + value.headD 0 - 1) with
    | some payload =>
        some (.ok ⟨value.headD 0,
          (windows16Step16 payload).map (fun w => Uuid.from_u128 (u128FromLeBytes w))⟩)
    | none => none

/-- `Into<Vec<u8>> for CompleteListOf128BitServiceUuids` (lines 134-147). -/
def CompleteListOf128BitServiceUuids.into (self : CompleteListOf128BitServiceUuids) : List Nat :=
  self.length :: CompleteListOf128BitServiceUuids.data_type
    :: self.uuids.flatMap (fun f => u128ToLeBytes f.as_u128)

/-- `BroadcastCode` (broadcast_code.rs). -/
structure BroadcastCode where
  length : Nat
  broadcast_code : List Nat
deriving DecidableEq, Repr

/-- `BroadcastCode::data_type()` (broadcast_code.rs line 208). -/
def BroadcastCode.data_type : Nat := 0x2D

/-- `TryFrom<&Vec<u8>> for BroadcastCode` (broadcast_code.rs lines 110-120):
reject buffers shorter than 6 bytes, then slice `value[2..1 + length]`. -/
def BroadcastCode.try_from (value : List Nat) : Option (Except String BroadcastCode) :=
  if value.length < 6 then some (.error ("Invalid data size :" ++ toString value.length))
  else
    match sliceRange value 2 (1 + value.headD 0) with
    | some body => some (.ok ⟨value.headD 0, body⟩)
    | none => none

/-- `is_broadcast_code` (broadcast_code.rs lines 224-225). -/
def is_broadcast_code (data_type : Nat) : Bool := BroadcastCode.data_type == data_type

/-- Modelled from the spec: the advertising-interval module is part of the
external type catalog and is not under src; the dispatcher only forwards
its `try_from` value, so the type is represented by the raw record. -/
structure AdvertisingInterval where
  raw : List Nat
deriving DecidableEq, Repr

/-- Modelled from the spec: tag of Advertising Interval per the Bluetooth
assigned-numbers table (`0x1A`), following the uniform `is_*` pattern. -/
def is_advertising_interval (data_type : Nat) : Bool := 0x1A == data_type

/-- Modelled from the spec: decode of this catalog type is external to the
core; represented as the raw record bytes. -/
def AdvertisingInterval.try_from (value : List Nat) : Option (Except String AdvertisingInterval) :=
  some (.ok ⟨value⟩)

/-- Modelled from the spec: the advertising-interval-long module is not
under src; represented by the raw record. -/
structure AdvertisingIntervalLong where
  raw : List Nat
deriving DecidableEq, Repr

/-- Modelled from the spec: tag of Advertising Interval - long per the
Bluetooth assigned-numbers table (`0x2F`). -/
def is_advertising_interval_long (data_type : Nat) : Bool := 0x2F == data_type

/-- Modelled from the spec: decode external to the core. -/
def AdvertisingIntervalLong.try_from (value : List Nat) :
    Option (Except String AdvertisingIntervalLong) :=
  some (.ok ⟨value⟩)

/-- Modelled from the spec: the BIGInfo module is not under src;
represented by the raw record. -/
structure BigInfo where
  raw : List Nat
deriving DecidableEq, Repr

/-- Modelled from the spec: tag of BIGInfo per the Bluetooth
assigned-numbers table (`0x2C`). -/
def is_big_info (data_type : Nat) : Bool := 0x2C == data_type

/-- Modelled from the spec: decode external to the core. -/
def BigInfo.try_from (value : List Nat) : Option (Except String BigInfo) :=
  some (.ok ⟨value⟩)

/-- Modelled from the spec: `is_appearance` is imported by the parser but
absent from src; it follows the library's uniform `is_*` pattern over the
src-defined tag `Appearance::data_type()`. -/
def is_appearance (data_type : Nat) : Bool := Appearance.data_type == data_type

/-- Equality of `Except` values is decidable componentwise. -/
instance exceptDecEq {ε α : Type} [DecidableEq ε] [DecidableEq α] : DecidableEq (Except ε α) := fun
  | .ok a, .ok b =>
    if h : a = b then .isTrue (congrArg Except.ok h)
    else .isFalse (fun c => h (Except.ok.inj c))
  | .error a, .error b =>
    if h : a = b then .isTrue (congrArg Except.error h)
    else .isFalse (fun c => h (Except.error.inj c))
  | .ok _, .error _ => .isFalse (fun c => Except.noConfusion c)
  | .error _, .ok _ => .isFalse (fun c => Except.noConfusion c)

/-- `DataTypeParseResult` (parser.rs lines 12-30). -/
inductive DataTypeParseResult where
  | advertisingIntervalResult (r : Except String AdvertisingInterval)
  | advertisingIntervalLongResult (r : Except String AdvertisingIntervalLong)
  | appearanceResult (r : Except String Appearance)
  | bigInfoResult (r : Except String BigInfo)
  | broadcastCodeResult (r : Except String BroadcastCode)
  | dataTypeParseErr (msg : String)
deriving DecidableEq, Repr

/-- `From<&Vec<u8>> for DataTypeParseResult` (parser.rs lines 188-210):
look at byte 1; if absent, an invalid-size outcome; otherwise run the
cascading tag checks and wrap the matching decode, or report the unknown
tag.  `none` models a panic inside the selected decoder. -/
def DataTypeParseResult.fromVec (value : List Nat) : Option DataTypeParseResult :=
  match value.get? 1 with
  | some data_type =>
    if is_advertising_interval data_type then
      (AdvertisingInterval.try_from value).map DataTypeParseResult.advertisingIntervalResult
    else if is_advertising_interval_long data_type then
      (AdvertisingIntervalLong.try_from value).map DataTypeParseResult.advertisingIntervalLongResult
    else if is_appearance data_type then
      (Appearance.try_from value).map DataTypeParseResult.appearanceResult
    else if is_big_info data_type then
      (BigInfo.try_from value).map DataTypeParseResult.bigInfoResult
    else if is_broadcast_code data_type then
      (BroadcastCode.try_from value).map DataTypeParseResult.broadcastCodeResult
    else
      some (.dataTypeParseErr ("Unknown data type :" ++ toString data_type))
  | none => some (.dataTypeParseErr "Invalid data size")

/-- `From<&Vec<Vec<u8>>> for DataTypeParseResults` (parser.rs lines 244-252):
one dispatch per record, in order; a panic inside any record's decoder
(`none`) aborts the whole call. -/
def DataTypeParseResults.fromVecVec : List (List Nat) → Option (List DataTypeParseResult)
  | [] => some []
  | r :: t =>
    match DataTypeParseResult.fromVec r with
    | none => none
    | some v =>
      match DataTypeParseResults.fromVecVec t with
      | none => none
      | some vs => some (v :: vs)

/-- The record-splitting loop of `From<&Vec<u8>> for DataTypeParseResults`
(parser.rs lines 278-293), acting on the unscanned suffix of the buffer:
read the length byte, slice `value[index..index + 1 + size]` (`none`
models the slice panic on a truncated record), and advance by `1 + size`.
The fuel argument only bounds recursion; it never runs out when started
at the buffer length. -/
def scanRecordsAux : Nat → List Nat → Option (List (List Nat))
  | _, [] => some []
  | 0, _ :: _ => none
  | fuel + 1, size :: rest =>
    if size ≤ rest.length then
      (scanRecordsAux fuel (rest.drop size)).map (fun rs => (size :: rest.take size) :: rs)
    else none

/-- The record-splitting loop started at position 0. -/
def scanRecords (value : List Nat) : Option (List (List Nat)) :=
  scanRecordsAux value.length value

/-- `From<&Vec<u8>> for DataTypeParseResults` (parser.rs lines 278-293):
split the flat buffer into records, then dispatch each. -/
def DataTypeParseResults.fromBytes (value : List Nat) : Option (List DataTypeParseResult) :=
  (scanRecords value).bind DataTypeParseResults.fromVecVec

/-- The Base-UUID alignment a 16-bit-list element must satisfy for the
decoder to be able to reconstruct it: every byte outside the two
low-order short-UUID positions agrees with `BASE_UUID`. -/
def IsBaseAligned16 (u : Uuid) : Prop :=
  u.b0 = 0x00 ∧ u.b1 = 0x00 ∧ u.b4 = 0x00 ∧ u.b5 = 0x00 ∧
  u.b6 = 0x10 ∧ u.b7 = 0x00 ∧ u.b8 = 0x80 ∧ u.b9 = 0x00 ∧
  u.b10 = 0x00 ∧ u.b11 = 0x80 ∧ u.b12 = 0x5F ∧ u.b13 = 0x9B ∧
  u.b14 = 0x34 ∧ u.b15 = 0xFB

/-! Helper lemmas shared by the claim theorems. -/

theorem windows2Step2_length : ∀ l : List Nat, (windows2Step2 l).length = l.length / 2
  | [] => rfl
  | [_] => by simp [windows2Step2]
  | a :: b :: t => by
    have ih := windows2Step2_length t
    simp only [windows2Step2, List.length_cons, ih]
    omega

theorem windows16Step16_length : ∀ l : List Nat, (windows16Step16 l).length = l.length / 16
  | [] => rfl
  | [_] => by simp [windows16Step16]
  | [_, _] => by simp [windows16Step16]
  | [_, _, _] => by simp [windows16Step16]
  | [_, _, _, _] => by simp [windows16Step16]
  | [_, _, _, _, _] => by simp [windows16Step16]
  | [_, _, _, _, _, _] => by simp [windows16Step16]
  | [_, _, _, _, _, _, _] => by simp [windows16Step16]
  | [_, _, _, _, _, _, _, _] => by simp [windows16Step16]
  | [_, _, _, _, _, _, _, _, _] => by simp [windows16Step16]
  | [_, _, _, _, _, _, _, _, _, _] => by simp [windows16Step16]
  | [_, _, _, _, _, _, _, _, _, _, _] => by simp [windows16Step16]
  | [_, _, _, _, _, _, _, _, _, _, _, _] => by simp [windows16Step16]
  | [_, _, _, _, _, _, _, _, _, _, _, _, _] => by simp [windows16Step16]
  | [_, _, _, _, _, _, _, _, _, _, _, _, _, _] => by simp [windows16Step16]
  | [_, _, _, _, _, _, _, _, _, _, _, _, _, _, _] => by simp [windows16Step16]
  | c0 :: c1 :: c2 :: c3 :: c4 :: c5 :: c6 :: c7 ::
    c8 :: c9 :: c10 :: c11 :: c12 :: c13 :: c14 :: c15 :: t => by
    have ih := windows16Step16_length t
    simp only [windows16Step16, List.length_cons, ih]
    omega

theorem uuid16FromWindow_take_two (a b : Nat) :
    (uuid16FromWindow a b).to_bytes_le.take 2 = [a, b] := rfl

theorem windows2_reconstruct : ∀ payload : List Nat, payload.length % 2 = 0 →
    ((windows2Step2 payload).map (fun w => uuid16FromWindow w.1 w.2)).flatMap
      (fun f => f.to_bytes_le.take 2) = payload
  | [], _ => rfl
  | [_], h => by simp at h
  | a :: b :: t, h => by
    have ih := windows2_reconstruct t (by simp only [List.length_cons] at h; omega)
    simp only [windows2Step2, List.map_cons, List.flatMap_cons, ih,
      uuid16FromWindow_take_two]
    rfl

theorem encoded16_length : ∀ us : List Uuid,
    (us.flatMap (fun f => f.to_bytes_le.take 2)).length = 2 * us.length
  | [] => rfl
  | u :: us => by
    have ih := encoded16_length us
    simp only [List.flatMap_cons, List.length_append, ih]
    show (u.to_bytes_le.take 2).length + 2 * us.length = 2 * (us.length + 1)
    simp only [Uuid.to_bytes_le, List.take, List.length_cons, List.length_nil]
    omega

theorem windows2_of_encoded : ∀ us : List Uuid, (∀ u ∈ us, IsBaseAligned16 u) →
    (windows2Step2 (us.flatMap (fun f => f.to_bytes_le.take 2))).map
      (fun w => uuid16FromWindow w.1 w.2) = us
  | [], _ => rfl
  | u :: us, h => by
    have ih := windows2_of_encoded us (fun v hv => h v (List.mem_cons_of_mem _ hv))
    have hu := h u (List.mem_cons_self _ _)
    show (windows2Step2 (u.b3 :: u.b2 :: us.flatMap (fun f => f.to_bytes_le.take 2))).map
      (fun w => uuid16FromWindow w.1 w.2) = u :: us
    simp only [windows2Step2, List.map_cons, ih]
    obtain ⟨h0, h1, h4, h5, h6, h7, h8, h9, h10, h11, h12, h13, h14, h15⟩ := hu
    cases u
    simp_all [uuid16FromWindow, Uuid.from_bytes_le, Uuid.to_bytes_le, BASE_UUID]

theorem encoded128_length : ∀ us : List Uuid,
    (us.flatMap (fun f => u128ToLeBytes f.as_u128)).length = 16 * us.length
  | [] => rfl
  | u :: us => by
    have ih := encoded128_length us
    have h16 : (u128ToLeBytes u.as_u128).length = 16 := by
      simp [u128ToLeBytes]
    simp only [List.flatMap_cons, List.length_append, ih, h16, List.length_cons]
    omega

theorem fromVecVec_length : ∀ records : List (List Nat), ∀ rs,
    DataTypeParseResults.fromVecVec records = some rs → rs.length = records.length
  | [], rs, h => by
    simp only [DataTypeParseResults.fromVecVec, Option.some.injEq] at h
    simp [← h]
  | r :: t, rs, h => by
    simp only [DataTypeParseResults.fromVecVec] at h
    cases hr : DataTypeParseResult.fromVec r with
    | none => rw [hr] at h; simp at h
    | some v =>
      rw [hr] at h
      cases ht : DataTypeParseResults.fromVecVec t with
      | none => rw [ht] at h; simp at h
      | some vs =>
        rw [ht] at h
        simp only [Option.some.injEq] at h
        have := fromVecVec_length t vs ht
        simp [← h, this]

theorem from_with_offset_isSome_iff (data : List Nat) (offset : Nat) :
    (Appearance.from_with_offset data offset).isSome ↔ data.length = offset + 4 := by
  unfold Appearance.from_with_offset
  split
  · rename_i hg
    have hlen : data.length ≤ offset := List.get?_eq_none.mp hg
    simp only [Option.isSome_none, Bool.false_eq_true, false_iff]
    omega
  · rename_i L hg
    have hoff : offset < data.length := by
      by_contra hcon
      rw [List.get?_eq_none.mpr (by omega)] at hg
      cases hg
    split
    · rename_i hle
      split
      · rename_i lo hi hd
        have h2 : (data.drop (2 + offset)).length = 2 := by rw [hd]; rfl
        rw [List.length_drop] at h2
        simp only [Option.isSome_some, true_iff]
        omega
      · rename_i hne
        simp only [Option.isSome_none, Bool.false_eq_true, false_iff]
        intro hlen4
        have h2 : (data.drop (2 + offset)).length = 2 := by
          rw [List.length_drop]; omega
        obtain ⟨a, b, hab⟩ := List.length_eq_two.mp h2
        exact hne a b hab
    · rename_i hle
      simp only [Option.isSome_none, Bool.false_eq_true, false_iff]
      omega

/-- C1: the claim that every public decode terminates without a panic and
returns a value is violated by the code: `Appearance::from_with_offset` on
the 3-byte record `[0x03, 0x19, 0x44]` reaches
`try_into().unwrap()` on a 1-byte tail and panics (modelled as `none`)
instead of returning a value. -/
theorem appearance_decode_panics_on_short_input :
    Appearance.from_with_offset [0x03, 0x19, 0x44] 0 = none := by decide

/-- C2: the claim that the flat-buffer scanner never slices past the end of
the buffer and reports a bounds error for a truncated record is violated:
on the buffer `[0x05]` (declared length 5, only 1 byte present) the slice
`value[0..6]` overruns the buffer and the scan panics (modelled as `none`)
instead of producing any outcome. -/
theorem scanner_panics_on_truncated_record :
    DataTypeParseResults.fromBytes [0x05] = none := by decide

/-- C9: the Appearance bitmask accessors at value `0x1444` give category
`0x051` (bits 6-15) and sub-category `0x04` (bits 0-5). -/
theorem appearance_bitmask_extraction :
    (Appearance.new 0x1444).category = 0x051 ∧ (Appearance.new 0x1444).sub_category = 0x04 := by
  decide

/-- C10: `Appearance::from_with_offset(data, offset)` returns a value
exactly when `data.len() == offset + 4`, and consequently
`Appearance::from` succeeds exactly on 4-byte inputs. -/
theorem appearance_exact_size (data : List Nat) (offset : Nat) :
    ((Appearance.from_with_offset data offset).isSome ↔ data.length = offset + 4) ∧
    ((Appearance.from_vec data).isSome ↔ data.length = 4) := by
  refine ⟨from_with_offset_isSome_iff data offset, ?_⟩
  have h := from_with_offset_isSome_iff data 0
  simpa using h

/-- C4 fails as stated: decoding `[5, 0x03, 0x01, 0x02, 0x03, 0x04]` yields
UUIDs whose 16-bit short values are `0x0201` and `0x0403` — the windows are
read little-endian — not `0x0001` and `0x0002` as claimed. -/
theorem uuid_list_le_counterexample :
    ((CompleteListOf16BitServiceUuids.try_from [5, 0x03, 0x01, 0x02, 0x03, 0x04]).map
      (Except.map (fun x => x.uuids.map uuidShort16))) = some (.ok [0x0201, 0x0403]) ∧
    ((CompleteListOf16BitServiceUuids.try_from [5, 0x03, 0x01, 0x02, 0x03, 0x04]).map
      (Except.map (fun x => x.uuids.map uuidShort16))) ≠ some (.ok [0x0001, 0x0002]) := by
  decide

/-- C4 (amended): decoding `[5, 0x03, 0x01, 0x02, 0x03, 0x04]` yields
exactly two UUIDs whose 16-bit short values are `0x0201` and `0x0403`
(each 2-byte window read little-endian), each equal to the Base UUID
constant with only the two low-order short-UUID bytes replaced. -/
theorem uuid_list_le_decode :
    CompleteListOf16BitServiceUuids.try_from [5, 0x03, 0x01, 0x02, 0x03, 0x04] =
      some (.ok ⟨5, [uuid16FromWindow 0x01 0x02, uuid16FromWindow 0x03 0x04]⟩) ∧
    uuidShort16 (uuid16FromWindow 0x01 0x02) = 0x0201 ∧
    uuidShort16 (uuid16FromWindow 0x03 0x04) = 0x0403 ∧
    uuid16FromWindow 0x01 0x02 = { BASE_UUID with b2 := 0x02, b3 := 0x01 } ∧
    uuid16FromWindow 0x03 0x04 = { BASE_UUID with b2 := 0x04, b3 := 0x03 } := by
  decide

/-- C5 fails as stated: a declared length that is not `1 + multiple of 2`
is not rejected — `[4, 0x03, 0x01, 0x02, 0x03]` has `(4 - 1) % 2 = 1`, yet
the decode returns `Ok` with one UUID, silently discarding the trailing
partial element. -/
theorem uuid_list_width_counterexample :
    (4 - 1) % 2 ≠ 0 ∧
    CompleteListOf16BitServiceUuids.try_from [4, 0x03, 0x01, 0x02, 0x03] =
      some (.ok ⟨4, [uuid16FromWindow 0x01 0x02]⟩) := by
  decide

/-- C5 (amended): the UUID-list decoders perform no multiple-of-width
validation.  Whenever the coarse minimum-size check and the declared
length byte admit the slice, decode succeeds and splits the declared
payload into non-overlapping width-`w` windows in order, silently
discarding a trailing partial element: the element count is
`(declared_length - 1) / w` (integer division), for `w = 2` and `w = 16`. -/
theorem uuid_list_silent_truncation :
    (∀ value : List Nat, 4 ≤ value.length → 1 ≤ value.headD 0 →
        value.headD 0 + 1 ≤ value.length →
      ∃ x, CompleteListOf16BitServiceUuids.try_from value = some (.ok x) ∧
        x.length = value.headD 0 ∧ x.uuids.length = (value.headD 0 - 1) / 2) ∧
    (∀ value : List Nat, 17 ≤ value.length → 1 ≤ value.headD 0 →
        value.headD 0 + 1 ≤ value.length →
      ∃ x, CompleteListOf128BitServiceUuids.try_from value = some (.ok x) ∧
        x.length = value.headD 0 ∧ x.uuids.length = (value.headD 0 - 1) / 16) := by
  constructor
  · intro value h4 h1 hlen
    have hcond : 2 ≤ 2 + value.headD 0 - 1 ∧ 2 + value.headD 0 - 1 ≤ value.length := by omega
    refine ⟨⟨value.headD 0,
      (windows2Step2 ((value.drop 2).take (2 + value.headD 0 - 1 - 2))).map
        (fun w => uuid16FromWindow w.1 w.2)⟩, ?_, rfl, ?_⟩
    · unfold CompleteListOf16BitServiceUuids.try_from sliceRange
      rw [if_neg (by omega), if_pos hcond]
    · simp only [List.length_map, windows2Step2_length, List.length_take, List.length_drop]
      omega
  · intro value h17 h1 hlen
    have hcond : 2 ≤ 2 + value.headD 0 - 1 ∧ 2 + value.headD 0 - 1 ≤ value.length := by omega
    refine ⟨⟨value.headD 0,
      (windows16Step16 ((value.drop 2).take (2 + value.headD 0 - 1 - 2))).map
        (fun w => Uuid.from_u128 (u128FromLeBytes w))⟩, ?_, rfl, ?_⟩
    · unfold CompleteListOf128BitServiceUuids.try_from sliceRange
      rw [if_neg (by omega), if_pos hcond]
    · simp only [List.length_map, windows16Step16_length, List.length_take, List.length_drop]
      omega

/-- Witness for the amended C5 theorem at the concrete odd-payload input
`[4, 0x03, 0x01, 0x02, 0x03]` (16-bit list) and at a 17-length 128-bit
record with an 18-byte buffer. -/
theorem uuid_list_silent_truncation_witness :
    (∃ x, CompleteListOf16BitServiceUuids.try_from [4, 0x03, 0x01, 0x02, 0x03] =
        some (.ok x) ∧ x.length = 4 ∧ x.uuids.length = (4 - 1) / 2) ∧
    (∃ x, CompleteListOf128BitServiceUuids.try_from
        [17, 0x07, 0, 0, 0, 0, 0, 0, 0, 0, 0, 0, 0, 0, 0, 0, 0, 0] =
        some (.ok x) ∧ x.length = 17 ∧ x.uuids.length = (17 - 1) / 16) := by
  constructor
  · have h := uuid_list_silent_truncation.1 [4, 0x03, 0x01, 0x02, 0x03]
      (by decide) (by decide) (by decide)
    simpa using h
  · have h := uuid_list_silent_truncation.2
      [17, 0x07, 0, 0, 0, 0, 0, 0, 0, 0, 0, 0, 0, 0, 0, 0, 0, 0]
      (by decide) (by decide) (by decide)
    simpa using h

/-- C3 fails as stated: for the constructible value
`CompleteListOf16BitServiceUuids::new([all-zero UUID])`, decoding its
encoding does not return the value — the decoder can only reconstruct
Base-UUID-overlaid elements, so the all-zero UUID comes back with the
Base UUID's fixed bytes instead. -/
theorem uuid_list_roundtrip_counterexample :
    CompleteListOf16BitServiceUuids.try_from
        (CompleteListOf16BitServiceUuids.into
          (CompleteListOf16BitServiceUuids.new
            [⟨0, 0, 0, 0, 0, 0, 0, 0, 0, 0, 0, 0, 0, 0, 0, 0⟩])) ≠
      some (.ok (CompleteListOf16BitServiceUuids.new
        [⟨0, 0, 0, 0, 0, 0, 0, 0, 0, 0, 0, 0, 0, 0, 0, 0⟩])) := by
  decide

/-- C3 (amended), for the 16-bit service-UUID list named by the claim:
`encode(decode(b)) == b` does hold for every well-formed `b` (tag `0x03`,
declared length `L = len(b) - 1` odd and at least 3); `decode(encode(x)) == x`
holds only under the conditions the counterexample forces — `x` must carry
at least one UUID (the empty encoding is 2 bytes and is rejected), the
stored length field must be the canonical `2 * count + 1`, and every UUID
must agree with the Base UUID outside its two low-order short-UUID bytes,
because decode can only reconstruct Base-overlaid elements. -/
theorem uuid_list_roundtrip_amended :
    (∀ (L : Nat) (payload : List Nat), payload.length = L - 1 → L % 2 = 1 → 3 ≤ L →
      ∃ x, CompleteListOf16BitServiceUuids.try_from
          (L :: CompleteListOf16BitServiceUuids.data_type :: payload) = some (.ok x) ∧
        CompleteListOf16BitServiceUuids.into x =
          L :: CompleteListOf16BitServiceUuids.data_type :: payload) ∧
    (∀ x : CompleteListOf16BitServiceUuids, 1 ≤ x.uuids.length →
      x.length = 2 * x.uuids.length + 1 → (∀ u ∈ x.uuids, IsBaseAligned16 u) →
      CompleteListOf16BitServiceUuids.try_from (CompleteListOf16BitServiceUuids.into x) =
        some (.ok x)) := by
  constructor
  · intro L payload hplen hodd h3
    refine ⟨⟨L, (windows2Step2 payload).map (fun w => uuid16FromWindow w.1 w.2)⟩, ?_, ?_⟩
    · have hc : 2 ≤ 2 + (L :: CompleteListOf16BitServiceUuids.data_type :: payload).headD 0 - 1 ∧
          2 + (L :: CompleteListOf16BitServiceUuids.data_type :: payload).headD 0 - 1 ≤
            (L :: CompleteListOf16BitServiceUuids.data_type :: payload).length := by
        simp only [List.headD_cons, List.length_cons, hplen]
        omega
      unfold CompleteListOf16BitServiceUuids.try_from sliceRange
      rw [if_neg (by simp only [List.length_cons, hplen]; omega), if_pos hc]
      simp only [List.headD_cons, List.drop_succ_cons, List.drop_zero]
      have ht : payload.take (2 + L - 1 - 2) = payload := by
        rw [show 2 + L - 1 - 2 = payload.length by omega]
        exact List.take_length _
      rw [ht]
    · unfold CompleteListOf16BitServiceUuids.into
      rw [windows2_reconstruct payload (by omega)]
  · intro x h1 hlen halign
    obtain ⟨L, us⟩ := x
    simp only at h1 hlen halign
    have hP : (us.flatMap (fun f => f.to_bytes_le.take 2)).length = 2 * us.length :=
      encoded16_length us
    unfold CompleteListOf16BitServiceUuids.into CompleteListOf16BitServiceUuids.try_from
      sliceRange
    have hc : 2 ≤ 2 + (L :: CompleteListOf16BitServiceUuids.data_type ::
          us.flatMap (fun f => f.to_bytes_le.take 2)).headD 0 - 1 ∧
        2 + (L :: CompleteListOf16BitServiceUuids.data_type ::
          us.flatMap (fun f => f.to_bytes_le.take 2)).headD 0 - 1 ≤
          (L :: CompleteListOf16BitServiceUuids.data_type ::
            us.flatMap (fun f => f.to_bytes_le.take 2)).length := by
      simp only [List.headD_cons, List.length_cons, hP]
      omega
    rw [if_neg (by simp only [List.length_cons, hP]; omega), if_pos hc]
    simp only [List.headD_cons, List.drop_succ_cons, List.drop_zero]
    have ht : (us.flatMap (fun f => f.to_bytes_le.take 2)).take (2 + L - 1 - 2) =
        us.flatMap (fun f => f.to_bytes_le.take 2) := by
      rw [show 2 + L - 1 - 2 = (us.flatMap (fun f => f.to_bytes_le.take 2)).length by
        rw [hP]; omega]
      exact List.take_length _
    rw [ht, windows2_of_encoded us halign]

/-- Witness for the amended C3 theorem: both directions instantiated at a
concrete one-element record. -/
theorem uuid_list_roundtrip_amended_witness :
    (∃ x, CompleteListOf16BitServiceUuids.try_from
        (3 :: CompleteListOf16BitServiceUuids.data_type :: [9, 8]) = some (.ok x) ∧
      CompleteListOf16BitServiceUuids.into x =
        3 :: CompleteListOf16BitServiceUuids.data_type :: [9, 8]) ∧
    CompleteListOf16BitServiceUuids.try_from
        (CompleteListOf16BitServiceUuids.into ⟨3, [uuid16FromWindow 9 8]⟩) =
      some (.ok ⟨3, [uuid16FromWindow 9 8]⟩) := by
  constructor
  · exact uuid_list_roundtrip_amended.1 3 [9, 8] (by decide) (by decide) (by decide)
  · exact uuid_list_roundtrip_amended.2 ⟨3, [uuid16FromWindow 9 8]⟩ (by decide) (by decide)
      (fun u hu => by rw [List.mem_singleton.mp hu]; unfold IsBaseAligned16; decide)

/-- C6 fails as stated: `Appearance::from(&[9, 0x19, 0x44, 0x14])` is a
value the public API constructs, and encoding it reproduces the stored
length field `9` at `output[0]`, which is not `len(output) - 1 = 3`. -/
theorem encode_length_invariant_counterexample :
    Appearance.from_vec [9, 0x19, 0x44, 0x14] = some ⟨9, 0x1444⟩ ∧
    Appearance.into ⟨9, 0x1444⟩ = [9, 0x19, 0x44, 0x14] ∧
    (Appearance.into ⟨9, 0x1444⟩).get? 0 ≠
      some ((Appearance.into ⟨9, 0x1444⟩).length - 1) := by
  decide

/-- C6 (amended): encode always produces `[stored length][type_tag][payload]`:
`output[1]` is the type's constant tag and `output[0]` is the stored length
field.  The length invariant `output[0] = len(output) - 1` holds for values
built by `new` (every Appearance; a 128-bit list whose byte length fits in
the `u8` cast), but not in general, because decode copies the input's
length byte into the stored field unchecked. -/
theorem encode_length_invariant_amended :
    (∀ x : Appearance, (Appearance.into x).get? 1 = some Appearance.data_type ∧
      (Appearance.into x).get? 0 = some x.length ∧ (Appearance.into x).length = 4) ∧
    (∀ a : Nat, (Appearance.into (Appearance.new a)).get? 0 =
      some ((Appearance.into (Appearance.new a)).length - 1)) ∧
    (∀ x : CompleteListOf128BitServiceUuids,
      (CompleteListOf128BitServiceUuids.into x).get? 1 =
        some CompleteListOf128BitServiceUuids.data_type ∧
      (CompleteListOf128BitServiceUuids.into x).get? 0 = some x.length ∧
      (CompleteListOf128BitServiceUuids.into x).length = 2 + 16 * x.uuids.length) ∧
    (∀ uuids : List Uuid, 16 * uuids.length + 1 < 256 →
      (CompleteListOf128BitServiceUuids.into (CompleteListOf128BitServiceUuids.new uuids)).get? 0
        = some ((CompleteListOf128BitServiceUuids.into
            (CompleteListOf128BitServiceUuids.new uuids)).length - 1)) := by
  refine ⟨fun x => ⟨rfl, rfl, rfl⟩, fun a => rfl, fun x => ⟨rfl, rfl, ?_⟩, ?_⟩
  · simp only [CompleteListOf128BitServiceUuids.into, List.length_cons, encoded128_length]
    omega
  · intro uuids h
    have hlen : (CompleteListOf128BitServiceUuids.into
        (CompleteListOf128BitServiceUuids.new uuids)).length = 2 + 16 * uuids.length := by
      simp only [CompleteListOf128BitServiceUuids.into, CompleteListOf128BitServiceUuids.new,
        List.length_cons, encoded128_length]
      omega
    rw [hlen]
    show some ((uuids.length * 16 + 1) % 256) = some (2 + 16 * uuids.length - 1)
    exact congrArg some (by omega)

/-- Witness for the amended C6 theorem: hypothesis-bearing parts applied
at `a = 0x1444` and at the one-element list `[BASE_UUID]`. -/
theorem encode_length_invariant_amended_witness :
    ((Appearance.into (Appearance.new 0x1444)).get? 0 =
      some ((Appearance.into (Appearance.new 0x1444)).length - 1)) ∧
    (16 * ([BASE_UUID] : List Uuid).length + 1 < 256 ∧
      (CompleteListOf128BitServiceUuids.into
          (CompleteListOf128BitServiceUuids.new [BASE_UUID])).get? 0 =
        some ((CompleteListOf128BitServiceUuids.into
            (CompleteListOf128BitServiceUuids.new [BASE_UUID])).length - 1)) :=
  ⟨encode_length_invariant_amended.2.1 0x1444,
   by decide, encode_length_invariant_amended.2.2.2 [BASE_UUID] (by decide)⟩

/-- C7: a record with fewer than 2 bytes is classified as an invalid-size
outcome before any tag lookup; every record with at least 2 bytes whose
byte 1 is a tag outside the registry (the five registered tags are
`0x1A`, `0x2F`, `0x19`, `0x2C`, `0x2D`) yields the unknown-type outcome
carrying the numeric tag value in its message — in particular a 3-byte
record with tag `0x00` yields "Unknown data type :0" — and the two error
messages are distinguishable. -/
theorem dispatcher_error_classification :
    (∀ value : List Nat, value.length < 2 →
      DataTypeParseResult.fromVec value = some (.dataTypeParseErr "Invalid data size")) ∧
    (∀ (value : List Nat) (d : Nat), value.get? 1 = some d →
      d ≠ 0x1A → d ≠ 0x2F → d ≠ 0x19 → d ≠ 0x2C → d ≠ 0x2D →
      DataTypeParseResult.fromVec value =
        some (.dataTypeParseErr ("Unknown data type :" ++ toString d))) ∧
    (∀ a c : Nat, DataTypeParseResult.fromVec [a, 0, c] =
      some (.dataTypeParseErr "Unknown data type :0")) ∧
    ("Unknown data type :0" : String) ≠ "Invalid data size" := by
  refine ⟨?_, ?_, fun a c => rfl, by decide⟩
  · intro value h2
    cases value with
    | nil => rfl
    | cons a t =>
      cases t with
      | nil => rfl
      | cons b t2 =>
        simp only [List.length_cons] at h2
        omega
  · intro value d hget hna hnb hnc hnd hne
    unfold DataTypeParseResult.fromVec
    split
    · rename_i dt hg
      have hdt : dt = d := Option.some.inj (hg.symm.trans hget)
      subst hdt
      rw [if_neg (by simp only [is_advertising_interval, beq_iff_eq]; omega),
        if_neg (by simp only [is_advertising_interval_long, beq_iff_eq]; omega),
        if_neg (by simp only [is_appearance, Appearance.data_type, beq_iff_eq]; omega),
        if_neg (by simp only [is_big_info, beq_iff_eq]; omega),
        if_neg (by simp only [is_broadcast_code, BroadcastCode.data_type, beq_iff_eq]; omega)]
    · rename_i hg
      rw [hget] at hg
      cases hg

/-- Witness for the C7 theorem: the invalid-size branch applied at the
1-byte record `[0x05]`, and the general unknown-tag branch applied at the
3-byte record `[1, 7, 2]` with the unregistered tag `0x07`. -/
theorem dispatcher_error_classification_witness :
    (([0x05] : List Nat).length < 2 ∧
      DataTypeParseResult.fromVec [0x05] = some (.dataTypeParseErr "Invalid data size")) ∧
    (([1, 7, 2] : List Nat).get? 1 = some 7 ∧
      DataTypeParseResult.fromVec [1, 7, 2] =
        some (.dataTypeParseErr ("Unknown data type :" ++ toString 7))) :=
  ⟨⟨by decide, dispatcher_error_classification.1 [0x05] (by decide)⟩,
   ⟨by decide, dispatcher_error_classification.2.1 [1, 7, 2] 7 (by decide) (by decide)
      (by decide) (by decide) (by decide) (by decide)⟩⟩

/-- C8: the scan-plus-dispatch pipeline preserves record count and order:
the empty buffer gives the empty outcome list; a zero-length record is
recorded as the invalid-size outcome while the scan advances exactly one
byte (the remaining buffer is scanned unchanged); the concrete buffer of
one valid Appearance record followed by a zero-length record gives exactly
the success outcome then the invalid-size outcome; and dispatch yields one
outcome per input record, index-for-index, for record lists and for
scanned flat buffers. -/
theorem scan_dispatch_order :
    (DataTypeParseResults.fromBytes [] = some []) ∧
    (∀ rest : List Nat, DataTypeParseResults.fromBytes (0 :: rest) =
      (DataTypeParseResults.fromBytes rest).map
        (fun rs => DataTypeParseResult.dataTypeParseErr "Invalid data size" :: rs)) ∧
    (DataTypeParseResults.fromBytes [3, 0x19, 0x44, 0x14, 0] =
      some [DataTypeParseResult.appearanceResult (.ok ⟨3, 0x1444⟩),
            DataTypeParseResult.dataTypeParseErr "Invalid data size"]) ∧
    (∀ records : List (List Nat), ∀ rs, DataTypeParseResults.fromVecVec records = some rs →
      rs.length = records.length) ∧
    (∀ value : List Nat, ∀ recs rs, scanRecords value = some recs →
      DataTypeParseResults.fromBytes value = some rs → rs.length = recs.length) := by
  refine ⟨rfl, ?_, by decide, fromVecVec_length, ?_⟩
  · intro rest
    unfold DataTypeParseResults.fromBytes scanRecords
    have h1 : scanRecordsAux (0 :: rest).length (0 :: rest) =
        (scanRecordsAux rest.length rest).map (fun rs => [0] :: rs) := by
      show (if 0 ≤ rest.length then
          (scanRecordsAux rest.length (rest.drop 0)).map (fun rs => (0 :: rest.take 0) :: rs)
        else none) = _
      rw [if_pos (Nat.zero_le _)]
      simp only [List.drop_zero, List.take_zero]
    rw [h1]
    cases hsc : scanRecordsAux rest.length rest with
    | none => rfl
    | some recs =>
      have hstep : DataTypeParseResults.fromVecVec ([0] :: recs) =
          match DataTypeParseResults.fromVecVec recs with
          | none => none
          | some vs =>
              some (DataTypeParseResult.dataTypeParseErr "Invalid data size" :: vs) := rfl
      show DataTypeParseResults.fromVecVec ([0] :: recs) =
        (DataTypeParseResults.fromVecVec recs).map
          (fun rs => DataTypeParseResult.dataTypeParseErr "Invalid data size" :: rs)
      rw [hstep]
      cases hfv : DataTypeParseResults.fromVecVec recs with
      | none => rfl
      | some rs => rfl
  · intro value recs rs hscan hres
    unfold DataTypeParseResults.fromBytes at hres
    rw [hscan] at hres
    exact fromVecVec_length recs rs hres

/-- Witness for the C8 theorem: the per-record-count parts applied to the
concrete record list `[[0]]` and the concrete flat buffer `[0]`. -/
theorem scan_dispatch_order_witness :
    ([DataTypeParseResult.dataTypeParseErr "Invalid data size"]).length =
      ([[0]] : List (List Nat)).length ∧
    ([DataTypeParseResult.dataTypeParseErr "Invalid data size"]).length =
      ([[0]] : List (List Nat)).length :=
  ⟨scan_dispatch_order.2.2.2.1 [[0]] [.dataTypeParseErr "Invalid data size"] rfl,
   scan_dispatch_order.2.2.2.2 [0] [[0]] [.dataTypeParseErr "Invalid data size"] rfl rfl⟩
